import Mathlib

/-!
Shallow embedding of the installation subsystem of the moltworker repository
(`src/installation.ts` and the plugin routes of `src/routes/api.ts`).

External effects (starting a process in the sandbox, polling it to completion
with `waitForProcess`, fetching its logs, reading the manifest file) are
modelled by an environment that records, for each call site, whether the call
returned normally or threw, and with what value.  The TypeScript control flow
(try/catch blocks, early manifest defaulting, read-modify-write of the
manifest document) is translated statement by statement into pure Lean
functions over that environment.
-/

namespace Moltworker

/-- outcome of one awaited external call: it either returns a value or throws.
A thrown value carries `some msg` when it is an `Error` with a message and
`none` for a non-`Error` throw (the code then reports the string
`Unknown error`, see `installation.ts` line 49). -/
inductive StepResult (α : Type) where
  | ok (a : α)
  | exn (e : Option String)
deriving DecidableEq

/-- message extracted from a thrown value, `installation.ts` line 49:
`error instanceof Error ? error.message : 'Unknown error'`. -/
def errMessage (e : Option String) : String :=
  e.getD "Unknown error"

/-- job type tag, `'plugin' | 'skill'` in `src/types` as used by
`installation.ts`. -/
inductive JobType where
  | plugin
  | skill
deriving DecidableEq

/-- job status, `'installing' | 'completed' | 'failed'`. -/
inductive JobStatus where
  | installing
  | completed
  | failed
deriving DecidableEq

/-- the `InstallationJob` record of `installation.ts` lines 20-27. -/
structure InstallationJob where
  id : String
  jobType : JobType
  target : String
  status : JobStatus
  startedAt : String
  completedAt : Option String := none
  output : List String := []
  error : Option String := none
deriving DecidableEq

/-- a plugin manifest entry `{ name, installedAt }` (`installation.ts`
line 45). -/
structure PluginManifest where
  name : String
  installedAt : String
deriving DecidableEq

/-- a skill manifest entry `{ slug, installedAt }` (`installation.ts`
line 83). -/
structure SkillManifest where
  slug : String
  installedAt : String
deriving DecidableEq

/-- the parsed manifest JSON document.  Every field is optional because the
code guards each access with `|| []` (lines 134-135, 164, 167, 186, 188):
`JSON.parse` of a document such as `{}` yields an object with all three
fields absent. -/
structure InstallationManifest where
  plugins : Option (List PluginManifest) := none
  skills : Option (List SkillManifest) := none
  lastUpdated : Option String := none
deriving DecidableEq

/-- a manifest entry as passed to `updateManifest` (`installation.ts`
line 159: `entry: PluginManifest | SkillManifest`). -/
inductive ManifestEntry where
  | plugin (p : PluginManifest)
  | skill (s : SkillManifest)
deriving DecidableEq

/-- `getManifest` (`installation.ts` lines 143-155): reading and parsing the
manifest file is one awaited fallible step (`cat` + `waitForProcess` +
`JSON.parse`, lines 145-150); any throw is caught and replaced by a fresh
empty manifest (line 153). -/
def getManifest (read : StepResult InstallationManifest) (now : String) :
    InstallationManifest :=
  match read with
  | .ok m => m
  | .exn _ => { plugins := some [], skills := some [], lastUpdated := some now }

/-- the pure document transformation inside `updateManifest`
(`installation.ts` lines 163-171): default the relevant list to `[]` if
absent, push the new entry at the end, refresh `lastUpdated`. -/
def updateManifestDoc (m : InstallationManifest) (e : ManifestEntry)
    (now : String) : InstallationManifest :=
  match e with
  | .plugin p =>
      { m with plugins := some (m.plugins.getD [] ++ [p]),
               lastUpdated := some now }
  | .skill s =>
      { m with skills := some (m.skills.getD [] ++ [s]),
               lastUpdated := some now }

/-- the pure document transformation inside `removeFromManifest`
(`installation.ts` lines 185-191): filter the relevant list by exact string
inequality of the key (`p.name !== name` for plugins, `s.slug !== name` for
skills), refresh `lastUpdated`; the other list is not touched. -/
def removeFromManifestDoc (m : InstallationManifest) (ty : JobType)
    (name : String) (now : String) : InstallationManifest :=
  match ty with
  | .plugin =>
      { m with plugins := some ((m.plugins.getD []).filter
                 (fun p => p.name != name)),
               lastUpdated := some now }
  | .skill =>
      { m with skills := some ((m.skills.getD []).filter
                 (fun s => s.slug != name)),
               lastUpdated := some now }

/-- the shell command interpolated by the install paths: line 33
(`openclaw plugins install ${pluginName}`) and line 71
(`npx clawhub install ${skillSlug}`).  The string is built directly from the
caller-supplied target with no validation. -/
def installCommand (ty : JobType) (target : String) : String :=
  match ty with
  | .plugin => "openclaw plugins install " ++ target
  | .skill => "npx clawhub install " ++ target

/-- the shell command interpolated by the uninstall paths: line 97
(`openclaw plugins uninstall ${pluginName}`) and line 115
(`npx clawhub uninstall ${skillSlug}`). -/
def uninstallCommand (ty : JobType) (target : String) : String :=
  match ty with
  | .plugin => "openclaw plugins uninstall " ++ target
  | .skill => "npx clawhub uninstall " ++ target

/-- INSTALLATION_TIMEOUT_MS, `installation.ts` line 11. -/
def INSTALLATION_TIMEOUT_MS : Nat := 120000

/-- the manifest entry an install appends on success: line 45
(`{ name: pluginName, installedAt: job.startedAt! }`) and line 83
(`{ slug: skillSlug, installedAt: job.startedAt! }`). -/
def installEntry (ty : JobType) (target startedAt : String) : ManifestEntry :=
  match ty with
  | .plugin => .plugin { name := target, installedAt := startedAt }
  | .skill => .skill { slug := target, installedAt := startedAt }

/-- environment of one install run: the outcome of each awaited external
call in source order, the timestamps sampled by `new Date()`, the generated
job id, and the exit code of the finished process (line 43, it is only ever
logged). -/
structure InstallEnv where
  jobId : String
  startedAt : String
  completedAt : String
  manifestTime : String
  startProc : StepResult Unit
  waitProc : StepResult Unit
  procLogs : StepResult (String × String)
  exitCode : Int
  manifestRead : StepResult InstallationManifest
  mkdirProc : StepResult Unit
  writeProc : StepResult Unit
deriving DecidableEq

/-- observable outcome of one install run: the returned job, the command
string handed to `sandbox.startProcess`, and the manifest document written
back to the manifest file (`none` when the run never dispatched the final
`echo ... > MANIFEST_FILE`, i.e. the file is left unmodified). -/
structure InstallResult where
  job : InstallationJob
  startedCommand : String
  fileWrite : Option InstallationManifest := none
deriving DecidableEq

/-- the catch block of `installPlugin` and `installSkill` (`installation.ts`
lines 46-51 and 84-89): status becomes `failed`, `completedAt` is stamped,
`error` is set from the thrown value. -/
def failJob (j : InstallationJob) (completedAt : String) (e : Option String) :
    InstallationJob :=
  { j with status := .failed, completedAt := some completedAt,
           error := some (errMessage e) }

/-- one install run, `installation.ts` lines 18-54 (`installPlugin`) and
56-92 (`installSkill`).  The two source functions are textually identical
except for the command string (line 33 versus 71) and the manifest entry
pushed on success (line 45 versus 83); both differences are captured by
`ty`.  The body of `updateManifest` (lines 157-177) is inlined at the point
of its single call in each function: `getManifest` absorbs read errors
itself, then the `mkdir` dispatch and the `echo` write dispatch are each
fallible awaited calls whose throws propagate into the install's catch
block. -/
def installRun (ty : JobType) (target : String) (env : InstallEnv) :
    InstallResult :=
  let job0 : InstallationJob :=
    { id := env.jobId, jobType := ty, target := target, status := .installing,
      startedAt := env.startedAt, output := [] }
  let cmd := installCommand ty target
  match env.startProc with
  | .exn e => { job := failJob job0 env.completedAt e, startedCommand := cmd }
  | .ok _ =>
    match env.waitProc with
    | .exn e => { job := failJob job0 env.completedAt e, startedCommand := cmd }
    | .ok _ =>
      match env.procLogs with
      | .exn e =>
          { job := failJob job0 env.completedAt e, startedCommand := cmd }
      | .ok logs =>
        let job1 : InstallationJob :=
          { job0 with output := [logs.1, logs.2], status := .completed,
                      completedAt := some env.completedAt }
        let m := getManifest env.manifestRead env.manifestTime
        let newDoc :=
          updateManifestDoc m (installEntry ty target env.startedAt)
            env.manifestTime
        match env.mkdirProc with
        | .exn e =>
            { job := failJob job1 env.completedAt e, startedCommand := cmd }
        | .ok _ =>
          match env.writeProc with
          | .exn e =>
              { job := failJob job1 env.completedAt e, startedCommand := cmd }
          | .ok _ =>
              { job := job1, startedCommand := cmd, fileWrite := some newDoc }

/-- `InstallationManager.installPlugin`, `installation.ts` lines 18-54. -/
def installPlugin (pluginName : String) (env : InstallEnv) : InstallResult :=
  installRun .plugin pluginName env

/-- `InstallationManager.installSkill`, `installation.ts` lines 56-92. -/
def installSkill (skillSlug : String) (env : InstallEnv) : InstallResult :=
  installRun .skill skillSlug env

/-- the first throw an install run meets, in source order, if any; `none`
when every awaited step returns normally. -/
def firstFailure (env : InstallEnv) : Option (Option String) :=
  match env.startProc with
  | .exn e => some e
  | .ok _ =>
    match env.waitProc with
    | .exn e => some e
    | .ok _ =>
      match env.procLogs with
      | .exn e => some e
      | .ok _ =>
        match env.mkdirProc with
        | .exn e => some e
        | .ok _ =>
          match env.writeProc with
          | .exn e => some e
          | .ok _ => none

/-- environment of one uninstall run: the outcome of each awaited external
call of `uninstallPlugin` / `uninstallSkill` in source order
(`installation.ts` lines 94-128), with the inlined `removeFromManifest`
(lines 179-195): the manifest read (absorbed by `getManifest` itself) and
the dispatch of the `echo` write-back. -/
structure UninstallEnv where
  manifestTime : String
  startProc : StepResult Unit
  waitProc : StepResult Unit
  procLogs : StepResult (String × String)
  exitCode : Int
  manifestRead : StepResult InstallationManifest
  writeProc : StepResult Unit
deriving DecidableEq

/-- observable outcome of one uninstall run: the boolean the caller gets,
the command string handed to `sandbox.startProcess`, and the manifest
document written back (`none` when the file is left unmodified). -/
structure UninstallResult where
  success : Bool
  startedCommand : String
  fileWrite : Option InstallationManifest := none
deriving DecidableEq

/-- one uninstall run, `installation.ts` lines 94-110 (`uninstallPlugin`)
and 112-128 (`uninstallSkill`); the two source functions differ only in the
command string and the manifest key filtered.  Every throw inside the try
block is caught and turned into `false` (lines 106-109, 124-127). -/
def uninstallRun (ty : JobType) (target : String) (env : UninstallEnv) :
    UninstallResult :=
  let cmd := uninstallCommand ty target
  match env.startProc with
  | .exn _ => { success := false, startedCommand := cmd }
  | .ok _ =>
    match env.waitProc with
    | .exn _ => { success := false, startedCommand := cmd }
    | .ok _ =>
      match env.procLogs with
      | .exn _ => { success := false, startedCommand := cmd }
      | .ok _ =>
        let m := getManifest env.manifestRead env.manifestTime
        let newDoc := removeFromManifestDoc m ty target env.manifestTime
        match env.writeProc with
        | .exn _ => { success := false, startedCommand := cmd }
        | .ok _ =>
            { success := true, startedCommand := cmd,
              fileWrite := some newDoc }

/-- `InstallationManager.uninstallPlugin`, `installation.ts` lines
94-110. -/
def uninstallPlugin (pluginName : String) (env : UninstallEnv) :
    UninstallResult :=
  uninstallRun .plugin pluginName env

/-- `InstallationManager.uninstallSkill`, `installation.ts` lines
112-128. -/
def uninstallSkill (skillSlug : String) (env : UninstallEnv) :
    UninstallResult :=
  uninstallRun .skill skillSlug env

/-- the first throw an uninstall run meets, in source order, if any. -/
def uninstallFirstFailure (env : UninstallEnv) : Option (Option String) :=
  match env.startProc with
  | .exn e => some e
  | .ok _ =>
    match env.waitProc with
    | .exn e => some e
    | .ok _ =>
      match env.procLogs with
      | .exn e => some e
      | .ok _ =>
        match env.writeProc with
        | .exn e => some e
        | .ok _ => none

/-- `InstallationManager.listInstalled`, `installation.ts` lines 130-141:
call `getManifest` (which absorbs its own failures) and default each list
with `|| []`; the surrounding try/catch returns empty lists on any residual
throw, which in this model cannot occur. -/
def listInstalled (read : StepResult InstallationManifest) (now : String) :
    List PluginManifest × List SkillManifest :=
  let m := getManifest read now
  (m.plugins.getD [], m.skills.getD [])

/-- the in-memory state of one `InstallationManager` instance: its
`activeJobs` map (`installation.ts` line 14), modelled as an association
list keyed by job id. -/
structure InstallationManagerState where
  activeJobs : List (String × InstallationJob) := []
deriving DecidableEq

/-- the constructor `new InstallationManager(sandbox)` (`installation.ts`
lines 13-16): `activeJobs` starts as an empty map. -/
def InstallationManagerState.new : InstallationManagerState :=
  { activeJobs := [] }

/-- `InstallationManager.getJob`, `installation.ts` lines 197-199:
`this.activeJobs.get(jobId)`, an explicit option-returning lookup. -/
def InstallationManagerState.getJob (m : InstallationManagerState)
    (jobId : String) : Option InstallationJob :=
  (m.activeJobs.find? (fun kv => kv.1 == jobId)).map (fun kv => kv.2)

/-- `this.activeJobs.set(jobId, job)` (`installation.ts` lines 29 and 67). -/
def InstallationManagerState.setJob (m : InstallationManagerState)
    (jobId : String) (job : InstallationJob) : InstallationManagerState :=
  { activeJobs :=
      if (m.activeJobs.find? (fun kv => kv.1 == jobId)).isSome then
        m.activeJobs.map (fun kv => if kv.1 == jobId then (jobId, job) else kv)
      else m.activeJobs ++ [(jobId, job)] }

/-- outcome of the job-status route. -/
inductive StatusRouteResult where
  | badRequest
  | notFound
  | found (j : InstallationJob)
deriving DecidableEq

/-- the handler of `GET /api/admin/plugins/status/:id`, `routes/api.ts`
lines 386-407: if the id parameter is falsy (the empty string) answer 400;
otherwise construct a fresh `InstallationManager` for this request, look the
id up in its (empty) job table, and answer 404 when absent. -/
def pluginStatusRoute (jobId : String) : StatusRouteResult :=
  if jobId = "" then .badRequest
  else
    let manager := InstallationManagerState.new
    match manager.getJob jobId with
    | none => .notFound
    | some j => .found j

/-- Modelled from the spec: the strict allow-list pattern of §9 —
alphanumerics, `@`, `/`, `-`, `.` — that target names and slugs must match
before being interpolated into a command string.  No such validation exists
anywhere under `src/`; this definition renders the requirement the spec says
the original lacks. -/
def validTarget (s : String) : Bool :=
  s.toList.all (fun c => c.isAlphanum || c = '@' || c = '/' || c = '-' || c = '.')

/-! Helper lemmas shared by the claim theorems. -/

/-- every path of an install run ends with a terminal status and a stamped
`completedAt`. -/
theorem install_job_terminal (ty : JobType) (target : String)
    (env : InstallEnv) :
    ((installRun ty target env).job.status = JobStatus.completed ∨
      (installRun ty target env).job.status = JobStatus.failed) ∧
    (installRun ty target env).job.completedAt.isSome = true := by
  rcases env with ⟨jid, sa, ca, mt, sp, wp, pl, ec, mr, mk, wr⟩
  cases sp <;> cases wp <;> cases pl <;> cases mk <;> cases wr <;>
    simp [installRun, failJob]

/-- when an install run writes the manifest file, what it writes is the
snapshot it read with its own entry pushed at the end. -/
theorem install_write_eq (ty : JobType) (target : String) (env : InstallEnv)
    (m d : InstallationManifest)
    (hr : env.manifestRead = StepResult.ok m)
    (hw : (installRun ty target env).fileWrite = some d) :
    d = updateManifestDoc m (installEntry ty target env.startedAt)
          env.manifestTime := by
  rcases env with ⟨jid, sa, ca, mt, sp, wp, pl, ec, mr, mk, wr⟩
  cases sp <;> cases wp <;> cases pl <;> cases mk <;> cases wr <;>
    simp_all [installRun, getManifest]

/-- a successful uninstall run writes back the snapshot it read, filtered by
the exact key. -/
theorem uninstall_success_write (ty : JobType) (target : String)
    (env : UninstallEnv) (m : InstallationManifest)
    (hr : env.manifestRead = StepResult.ok m)
    (hs : (uninstallRun ty target env).success = true) :
    (uninstallRun ty target env).fileWrite =
      some (removeFromManifestDoc m ty target env.manifestTime) := by
  rcases env with ⟨mt, sp, wp, pl, ec, mr, wr⟩
  cases sp <;> cases wp <;> cases pl <;> cases wr <;>
    simp_all [uninstallRun, getManifest]

/-! Claim theorems. -/

/-- C1: for every plugin name, `installPlugin` returns a job whose status is
terminal — `completed` or `failed`, never still `installing` — and likewise
`installSkill` for every skill slug; the returned job always has
`completedAt` set. -/
theorem C1_install_returns_terminal_job (name slug : String)
    (envP envS : InstallEnv) :
    (((installPlugin name envP).job.status = JobStatus.completed ∨
        (installPlugin name envP).job.status = JobStatus.failed) ∧
      (installPlugin name envP).job.completedAt.isSome = true) ∧
    (((installSkill slug envS).job.status = JobStatus.completed ∨
        (installSkill slug envS).job.status = JobStatus.failed) ∧
      (installSkill slug envS).job.completedAt.isSome = true) :=
  ⟨install_job_terminal .plugin name envP, install_job_terminal .skill slug envS⟩

/-- C5: `listInstalled` returns the manifest's `plugins` and `skills` lists
verbatim when they are present, defaults an absent field to the empty list,
returns empty lists on a read/parse failure, and on a fresh environment
(manifest file absent, so the read yields the parse of the defaulted text,
an object with no fields) returns empty lists — in no case does it raise. -/
theorem C5_listInstalled_verbatim_or_empty (ps : List PluginManifest)
    (ss : List SkillManifest) (lu : Option String)
    (m : InstallationManifest) (e : Option String) (now1 now2 now3 now4 : String) :
    listInstalled (.ok ⟨some ps, some ss, lu⟩) now1 = (ps, ss) ∧
    listInstalled (.ok m) now2 = (m.plugins.getD [], m.skills.getD []) ∧
    listInstalled (.exn e) now3 = ([], []) ∧
    listInstalled (.ok ⟨none, none, none⟩) now4 = ([], []) := by
  refine ⟨?_, ?_, ?_, ?_⟩ <;> simp [listInstalled, getManifest]

/-- C6: `uninstallPlugin` and `uninstallSkill` return a boolean success
flag — `true` exactly when the uninstall sequence completes with no throw,
`false` whenever any step throws; both are total functions of the
environment, so no exception reaches the caller. -/
theorem C6_uninstall_boolean_flag (name slug : String)
    (envP envS : UninstallEnv) :
    ((uninstallPlugin name envP).success = true ↔
      uninstallFirstFailure envP = none) ∧
    ((uninstallSkill slug envS).success = true ↔
      uninstallFirstFailure envS = none) := by
  constructor
  · rcases envP with ⟨mt, sp, wp, pl, ec, mr, wr⟩
    cases sp <;> cases wp <;> cases pl <;> cases wr <;>
      simp [uninstallPlugin, uninstallRun, uninstallFirstFailure]
  · rcases envS with ⟨mt, sp, wp, pl, ec, mr, wr⟩
    cases sp <;> cases wp <;> cases pl <;> cases wr <;>
      simp [uninstallSkill, uninstallRun, uninstallFirstFailure]

/-- C9: the job-status route builds a fresh `InstallationManager` per
request, whose job table starts empty, so for every nonempty job id —
including an id returned by an earlier install request — the route answers
the not-found outcome, never a job record. -/
theorem C9_status_route_never_finds_job (jobId : String) (h : jobId ≠ "") :
    InstallationManagerState.new.activeJobs = [] ∧
    pluginStatusRoute jobId = StatusRouteResult.notFound := by
  refine ⟨rfl, ?_⟩
  simp [pluginStatusRoute, InstallationManagerState.new,
    InstallationManagerState.getJob, h]

/-- C9 witness: a concrete id of the shape an install returns is answered
with not-found. -/
theorem C9_status_route_witness :
    InstallationManagerState.new.activeJobs = [] ∧
    pluginStatusRoute "3f2b9d4e-8a61-4c5f-9e70-123456789abc" =
      StatusRouteResult.notFound :=
  C9_status_route_never_finds_job "3f2b9d4e-8a61-4c5f-9e70-123456789abc"
    (by decide)

/-- C10: for every id absent from the job table — in particular every id
never issued by an install — `getJob` returns the explicit absent value;
being a total function, it never throws. -/
theorem C10_getJob_unknown_id_none (m : InstallationManagerState)
    (id : String) (h : ∀ kv ∈ m.activeJobs, kv.1 ≠ id) :
    m.getJob id = none := by
  have hf : m.activeJobs.find? (fun kv => kv.1 == id) = none := by
    rw [List.find?_eq_none]
    intro kv hkv
    simp [h kv hkv]
  simp [InstallationManagerState.getJob, hf]

/-- C10 witness: a fresh manager holds no job, so an arbitrary id is
reported absent. -/
theorem C10_getJob_witness :
    InstallationManagerState.new.getJob "never-issued" = none :=
  C10_getJob_unknown_id_none InstallationManagerState.new "never-issued"
    (by intro kv hkv; simp [InstallationManagerState.new] at hkv)

/-- C2: for every install (plugin or skill), if any awaited step throws —
process start error, timeout inside `waitForProcess`, log retrieval, or
either dispatch inside `updateManifest` — the returned job is `failed` with
`error` set to the thrown failure's message (`Unknown error` for a
non-`Error` throw), and the manifest file is not written by that install. -/
theorem C2_any_failure_fails_job_keeps_manifest (ty : JobType)
    (target : String) (env : InstallEnv) (e : Option String)
    (h : firstFailure env = some e) :
    (installRun ty target env).job.status = JobStatus.failed ∧
    (installRun ty target env).job.error = some (errMessage e) ∧
    (installRun ty target env).fileWrite = none := by
  rcases env with ⟨jid, sa, ca, mt, sp, wp, pl, ec, mr, mk, wr⟩
  cases sp <;> cases wp <;> cases pl <;> cases mk <;> cases wr <;>
    simp_all [installRun, firstFailure, failJob]

/-- concrete install environment whose wait step throws a timeout. -/
def envTimeoutC2 : InstallEnv :=
  { jobId := "j1", startedAt := "t1", completedAt := "t2",
    manifestTime := "t3", startProc := .ok (),
    waitProc := .exn (some "Process timed out"), procLogs := .ok ("", ""),
    exitCode := 0, manifestRead := .ok ⟨none, none, none⟩,
    mkdirProc := .ok (), writeProc := .ok () }

/-- C2 witness: a timed-out plugin install ends `failed` with the timeout
message and writes nothing. -/
theorem C2_failure_witness :
    firstFailure envTimeoutC2 = some (some "Process timed out") ∧
    ((installRun .plugin "p" envTimeoutC2).job.status = JobStatus.failed ∧
     (installRun .plugin "p" envTimeoutC2).job.error =
       some "Process timed out" ∧
     (installRun .plugin "p" envTimeoutC2).fileWrite = none) :=
  ⟨rfl, C2_any_failure_fails_job_keeps_manifest .plugin "p" envTimeoutC2
    (some "Process timed out") rfl⟩

/-- C3: when every awaited step returns — in particular the started process
reaches a terminal state within the 120-second timeout — the run produces
exactly the same result whatever the exit code is (the exit code is only
logged, never inspected), the job ends `completed`, and the manifest
document written is the read snapshot with the install's entry appended. -/
theorem C3_exit_code_ignored_install_completes (ty : JobType)
    (target : String) (env : InstallEnv) (a b : Int) (o er : String)
    (hs : env.startProc = StepResult.ok ())
    (hw : env.waitProc = StepResult.ok ())
    (hl : env.procLogs = StepResult.ok (o, er))
    (hm : env.mkdirProc = StepResult.ok ())
    (hwr : env.writeProc = StepResult.ok ()) :
    installRun ty target { env with exitCode := a } =
      installRun ty target { env with exitCode := b } ∧
    (installRun ty target env).job.status = JobStatus.completed ∧
    (installRun ty target env).fileWrite =
      some (updateManifestDoc (getManifest env.manifestRead env.manifestTime)
        (installEntry ty target env.startedAt) env.manifestTime) := by
  rcases env with ⟨jid, sa, ca, mt, sp, wp, pl, ec, mr, mk, wr⟩
  simp only at hs hw hl hm hwr
  subst hs; subst hw; subst hl; subst hm; subst hwr
  exact ⟨rfl, rfl, rfl⟩

/-- concrete all-steps-return install environment with a nonzero exit
code. -/
def envOkC3 : InstallEnv :=
  { jobId := "j2", startedAt := "s", completedAt := "c", manifestTime := "m",
    startProc := .ok (), waitProc := .ok (), procLogs := .ok ("out", "err"),
    exitCode := 7, manifestRead := .ok ⟨none, none, none⟩,
    mkdirProc := .ok (), writeProc := .ok () }

/-- C3 witness: with exit code 7 the run equals the exit-code-0 run, is
`completed`, and appends its entry. -/
theorem C3_exit_code_witness :
    installRun .plugin "pkg" { envOkC3 with exitCode := 7 } =
      installRun .plugin "pkg" { envOkC3 with exitCode := 0 } ∧
    (installRun .plugin "pkg" envOkC3).job.status = JobStatus.completed ∧
    (installRun .plugin "pkg" envOkC3).fileWrite =
      some (updateManifestDoc
        (getManifest envOkC3.manifestRead envOkC3.manifestTime)
        (installEntry .plugin "pkg" envOkC3.startedAt)
        envOkC3.manifestTime) :=
  C3_exit_code_ignored_install_completes .plugin "pkg" envOkC3 7 0 "out" "err"
    rfl rfl rfl rfl rfl

/-- C4: lost-update property.  When two installs both read the same
manifest snapshot `m0` before either writes it back — the update is an
unguarded read-modify-write — each write contains only its own new entry,
so the write that lands last (here install 2's document `d2`) carries
install 2's entry and no entry of install 1: one of the two updates is
silently lost. -/
theorem C4_lost_update (m0 : InstallationManifest) (n1 n2 : String)
    (env1 env2 : InstallEnv) (d1 d2 : InstallationManifest)
    (hn : n1 ≠ n2)
    (h0 : ∀ p ∈ m0.plugins.getD [], p.name ≠ n1)
    (h1r : env1.manifestRead = StepResult.ok m0)
    (h2r : env2.manifestRead = StepResult.ok m0)
    (h1w : (installPlugin n1 env1).fileWrite = some d1)
    (h2w : (installPlugin n2 env2).fileWrite = some d2) :
    (∃ p ∈ d1.plugins.getD [], p.name = n1) ∧
    (∃ p ∈ d2.plugins.getD [], p.name = n2) ∧
    (∀ p ∈ d2.plugins.getD [], p.name ≠ n1) := by
  have e1 := install_write_eq .plugin n1 env1 m0 d1 h1r h1w
  have e2 := install_write_eq .plugin n2 env2 m0 d2 h2r h2w
  subst e1; subst e2
  refine ⟨?_, ?_, ?_⟩
  · refine ⟨⟨n1, env1.startedAt⟩, ?_, rfl⟩
    simp [updateManifestDoc, installEntry]
  · refine ⟨⟨n2, env2.startedAt⟩, ?_, rfl⟩
    simp [updateManifestDoc, installEntry]
  · intro p hp
    simp [updateManifestDoc, installEntry, List.mem_append] at hp
    rcases hp with hp | hp
    · exact h0 p hp
    · rw [hp]
      exact fun hc => hn hc.symm

/-- concrete environment of the first racing install: reads an empty
snapshot. -/
def envRace1 : InstallEnv :=
  { jobId := "a", startedAt := "s1", completedAt := "c1",
    manifestTime := "m1", startProc := .ok (), waitProc := .ok (),
    procLogs := .ok ("", ""), exitCode := 0,
    manifestRead := .ok ⟨some [], some [], none⟩, mkdirProc := .ok (),
    writeProc := .ok () }

/-- concrete environment of the second racing install: reads the same empty
snapshot, because it read before the first install wrote. -/
def envRace2 : InstallEnv :=
  { envRace1 with jobId := "b", startedAt := "s2", manifestTime := "m2" }

/-- C4 witness: with both installs reading the empty snapshot, each written
document holds only its own entry — the final file misses install 1's
plugin. -/
theorem C4_lost_update_witness :
    (∃ p ∈ (InstallationManifest.mk (some [⟨"p1", "s1"⟩]) (some [])
        (some "m1")).plugins.getD [], p.name = "p1") ∧
    (∃ p ∈ (InstallationManifest.mk (some [⟨"p2", "s2"⟩]) (some [])
        (some "m2")).plugins.getD [], p.name = "p2") ∧
    (∀ p ∈ (InstallationManifest.mk (some [⟨"p2", "s2"⟩]) (some [])
        (some "m2")).plugins.getD [], p.name ≠ "p1") :=
  C4_lost_update ⟨some [], some [], none⟩ "p1" "p2" envRace1 envRace2
    ⟨some [⟨"p1", "s1"⟩], some [], some "m1"⟩
    ⟨some [⟨"p2", "s2"⟩], some [], some "m2"⟩
    (by decide) (by simp) rfl rfl rfl rfl

/-- C7: a successful uninstall writes back the manifest with exactly the
entries whose key equals the target removed (exact string equality on
`name` for plugins, `slug` for skills), keeping every other entry of that
list in order and leaving the whole other list untouched. -/
theorem C7_uninstall_removes_exact_key (targetP targetS : String)
    (envP envS : UninstallEnv) (mP mS : InstallationManifest)
    (hPr : envP.manifestRead = StepResult.ok mP)
    (hPs : (uninstallPlugin targetP envP).success = true)
    (hSr : envS.manifestRead = StepResult.ok mS)
    (hSs : (uninstallSkill targetS envS).success = true) :
    (uninstallPlugin targetP envP).fileWrite =
      some { mP with
               plugins := some ((mP.plugins.getD []).filter
                 (fun p => p.name != targetP)),
               lastUpdated := some envP.manifestTime } ∧
    (uninstallSkill targetS envS).fileWrite =
      some { mS with
               skills := some ((mS.skills.getD []).filter
                 (fun s => s.slug != targetS)),
               lastUpdated := some envS.manifestTime } := by
  constructor
  · have h := uninstall_success_write .plugin targetP envP mP hPr hPs
    simpa [removeFromManifestDoc] using h
  · have h := uninstall_success_write .skill targetS envS mS hSr hSs
    simpa [removeFromManifestDoc] using h

/-- concrete uninstall environment for a plugin target, all steps
returning. -/
def envUninstallP : UninstallEnv :=
  { manifestTime := "mu", startProc := .ok (), waitProc := .ok (),
    procLogs := .ok ("", ""), exitCode := 0,
    manifestRead := .ok ⟨some [⟨"a", "t1"⟩, ⟨"b", "t2"⟩],
      some [⟨"s", "t3"⟩], some "t0"⟩,
    writeProc := .ok () }

/-- concrete uninstall environment for a skill target, all steps
returning. -/
def envUninstallS : UninstallEnv :=
  { envUninstallP with
    manifestRead := .ok ⟨some [⟨"a", "t1"⟩],
      some [⟨"s", "t3"⟩, ⟨"u", "t4"⟩], some "t0"⟩ }

/-- C7 witness: uninstalling plugin `a` keeps plugin `b` and the whole
skill list; uninstalling skill `s` keeps skill `u` and the whole plugin
list. -/
theorem C7_uninstall_witness :
    (uninstallPlugin "a" envUninstallP).fileWrite =
      some ⟨some [⟨"b", "t2"⟩], some [⟨"s", "t3"⟩], some "mu"⟩ ∧
    (uninstallSkill "s" envUninstallS).fileWrite =
      some ⟨some [⟨"a", "t1"⟩], some [⟨"u", "t4"⟩], some "mu"⟩ := by
  have h := C7_uninstall_removes_exact_key "a" "s" envUninstallP envUninstallS
    ⟨some [⟨"a", "t1"⟩, ⟨"b", "t2"⟩], some [⟨"s", "t3"⟩], some "t0"⟩
    ⟨some [⟨"a", "t1"⟩], some [⟨"s", "t3"⟩, ⟨"u", "t4"⟩], some "t0"⟩
    rfl rfl rfl rfl
  simpa using h

/-- concrete all-steps-return install environment used to exercise an
injected target. -/
def envOkC8 : InstallEnv :=
  { jobId := "j8", startedAt := "s8", completedAt := "c8",
    manifestTime := "m8", startProc := .ok (), waitProc := .ok (),
    procLogs := .ok ("", ""), exitCode := 0,
    manifestRead := .ok ⟨none, none, none⟩, mkdirProc := .ok (),
    writeProc := .ok () }

/-- concrete all-steps-return uninstall environment used to exercise an
injected target. -/
def envOkC8U : UninstallEnv :=
  { manifestTime := "m8", startProc := .ok (), waitProc := .ok (),
    procLogs := .ok ("", ""), exitCode := 0,
    manifestRead := .ok ⟨none, none, none⟩, writeProc := .ok () }

/-- C8: the code performs no validation.  The target `x; echo pwned` is
outside the allow-list pattern, yet every install and uninstall path
interpolates it verbatim into the command handed to
`sandbox.startProcess`, and the install proceeds to `completed` instead of
being rejected before any process start. -/
theorem C8_no_validation_of_targets :
    validTarget "x; echo pwned" = false ∧
    (installPlugin "x; echo pwned" envOkC8).startedCommand =
      "openclaw plugins install x; echo pwned" ∧
    (installPlugin "x; echo pwned" envOkC8).job.status =
      JobStatus.completed ∧
    (installSkill "x; echo pwned" envOkC8).startedCommand =
      "npx clawhub install x; echo pwned" ∧
    (uninstallPlugin "x; echo pwned" envOkC8U).startedCommand =
      "openclaw plugins uninstall x; echo pwned" ∧
    (uninstallSkill "x; echo pwned" envOkC8U).startedCommand =
      "npx clawhub uninstall x; echo pwned" := by
  refine ⟨by decide, rfl, rfl, rfl, rfl, rfl⟩

end Moltworker
